import Mathlib

/-!
Shallow embedding of the Cloudflare worker `src/serverless/cloudflare/src/index.ts`
of the PMTiles repository.

External collaborators (the R2 object store, the D1 metadata store, the edge
cache, the PMTiles archive reader, and the shared path parsers `tile_path` /
`pmtiles_path`) are modelled as oracle fields of a `World` record.  The worker
itself — routing, CORS, cache orchestration, tile validation, the font
resolver, the styles passthrough, the range-source adapter and the
decompression shim — is translated statement by statement.  Observable effects
(edge-cache lookups, edge-cache writes, direct bucket reads, `getZxy`
invocations) are returned alongside the response so that "never invoked" /
"written to the cache" properties are statable.
-/

namespace Gateway

/-- The `TileType` enum of the pmtiles js library (Unknown, Mvt, Png, Jpeg, Webp, Avif). -/
inductive TileType where
  | Unknown
  | Mvt
  | Png
  | Jpeg
  | Webp
  | Avif
deriving DecidableEq, Repr

/-- The `Compression` enum of the pmtiles js library. -/
inductive Compression where
  | Unknown
  | None
  | Gzip
  | Brotli
  | Zstd
deriving DecidableEq, Repr

/-- Exceptions that can cross the try/catch of the worker:
`KeyNotFoundError`, `EtagMismatch`, and anything else (TypeError, D1/JSON failures, ...). -/
inductive JsErr where
  | keyNotFound
  | etagMismatch
  | other (msg : String)
deriving DecidableEq, Repr

/-- A response body: a string or a byte buffer (`undefined` bodies are `Option.none` above). -/
inductive BodyV where
  | str (s : String)
  | bytes (b : List Nat)
deriving DecidableEq, Repr

/-- Model of `String.prototype.toUpperCase` (ASCII range), executable in the kernel. -/
def toUpperJs (s : String) : String := ⟨s.data.map Char.toUpper⟩

/-- Model of `String.prototype.split` with a one-character separator, executable in the
kernel; same semantics as the library `splitOn` for these separators. -/
def splitCharAux (sep : Char) : List Char → List Char → List String
  | [], acc => [⟨acc.reverse⟩]
  | c :: rest, acc =>
    if c = sep then ⟨acc.reverse⟩ :: splitCharAux sep rest []
    else splitCharAux sep rest (c :: acc)

/-- Split a string on a single character. -/
def splitChar (sep : Char) (s : String) : List String := splitCharAux sep s.data []

/-- Model of the call `replace` of `/%20/g` by a space, executable in the kernel. -/
def decodeSpaces : List Char → List Char
  | '%' :: '2' :: '0' :: rest => ' ' :: decodeSpaces rest
  | c :: rest => c :: decodeSpaces rest
  | [] => []

/-- Percent-decoding of spaces on a string. -/
def decodeSpacesStr (s : String) : String := ⟨decodeSpaces s.data⟩

/-- Character-list prefix test, executable in the kernel. -/
def isPrefixChars : List Char → List Char → Bool
  | [], _ => true
  | _ :: _, [] => false
  | p :: ps, c :: cs => p = c && isPrefixChars ps cs

/-- Model of `String.prototype.startsWith`, executable in the kernel. -/
def startsWithJs (s pre : String) : Bool := isPrefixChars pre.data s.data

/-- Headers as an association list; `set` replaces, lookup takes the stored pair. -/
def hset (h : List (String × String)) (k v : String) : List (String × String) :=
  h.filter (fun p => p.1 ≠ k) ++ [(k, v)]

/-- Header lookup. -/
def hget (h : List (String × String)) (k : String) : Option String :=
  (h.find? (fun p => p.1 = k)).map (fun p => p.2)

/-- A materialized HTTP response. -/
structure Response where
  body : Option BodyV
  status : Nat
  headers : List (String × String)
deriving DecidableEq, Repr

/-- An `R2ObjectBody`: the possibly absent body stream of the object plus metadata.
`body` is `none` exactly when the conditional `onlyIf` was not satisfied. -/
structure R2ObjectBody where
  body : Option (List Nat)
  etag : String
  cacheControl : Option String
  expires : Option String
deriving DecidableEq, Repr

/-- The `RangeResponse` of the pmtiles js Source contract. -/
structure RangeResponse where
  data : List Nat
  etag : Option String
  cacheControl : Option String
  expires : Option String
deriving DecidableEq, Repr

/-- One conditional range read issued to the bucket (for counting adapter calls). -/
structure RangeReq where
  key : String
  offset : Nat
  length : Nat
  etag : Option String
deriving DecidableEq, Repr

/-- The pmtiles archive header fields the worker reads. -/
structure Header where
  minZoom : Int
  maxZoom : Int
  tileType : TileType
deriving DecidableEq, Repr

/-- Result of the shared `tile_path` URL parser (external to the source under analysis). -/
structure TilePathResult where
  ok : Bool
  name : String
  tile : Option (Int × Int × Int)
  ext : String
deriving DecidableEq, Repr

/-- The environment bindings of the worker (the two service bindings live in `World`). -/
structure Env where
  allowedOrigins : Option String
  cacheControl : Option String
  pmtilesPath : Option String
  publicHostname : Option String

/-- The inbound request as the worker observes it. -/
structure Request where
  url : String
  pathname : String
  hostname : String
  method : String
  origin : Option String

/-- Oracles for every external collaborator the worker calls. -/
structure World where
  /-- `caches.default.match(request.url)`. -/
  cacheMatch : String → Option Response
  /-- `env.BUCKET.get(key)` without options (fonts/styles paths). -/
  bucketGet : String → Option R2ObjectBody
  /-- `env.BUCKET.get(key, {range:{offset,length}, onlyIf:{etagMatches}})`. -/
  bucketGetCond : String → Nat → Nat → Option String → Option R2ObjectBody
  /-- The shared `pmtiles_path(name, env.PMTILES_PATH)` key builder. -/
  pmtilesPath : String → Option String → String
  /-- The shared `tile_path(pathname)` parser. -/
  tilePath : String → TilePathResult
  /-- `JSON.stringify(await getAvailablePmTilesFromD1(env.OCAP2_DATA))`, or a thrown error. -/
  d1Listing : Except JsErr String
  /-- `p.getHeader()` for the archive of the given name. -/
  getHeader : String → Except JsErr Header
  /-- `p.getTileJson(baseUrl)` for the archive of the given name. -/
  getTileJson : String → String → Except JsErr String
  /-- `p.getZxy(z, x, y)` for the archive of the given name; `ok none` when no tile. -/
  getZxy : String → Int → Int → Int → Except JsErr (Option (List Nat))

/-- Translation of `nativeDecompress`: identity for `None`/`Unknown`, gzip inflate (the
`DecompressionStream("gzip")` of the host, passed in as `gzipInflate`) for `Gzip`, and a thrown
`Error("Compression method not supported")` otherwise. -/
def nativeDecompress (gzipInflate : List Nat → List Nat) (buf : List Nat)
    (compression : Compression) : Except String (List Nat) :=
  if compression = Compression.None ∨ compression = Compression.Unknown then
    Except.ok buf
  else if compression = Compression.Gzip then
    Except.ok (gzipInflate buf)
  else
    Except.error "Compression method not supported"

/-- Translation of `R2Source.getBytes`: one conditional range read against the bucket;
absent object → `KeyNotFoundError`; object present but `onlyIf.etagMatches`
unsatisfied (no body) → `EtagMismatch`; otherwise the bytes and metadata.
The second component logs the bucket reads performed (always exactly one). -/
def R2Source.getBytes (w : World) (env : Env) (archiveName : String)
    (offset length : Nat) (etag : Option String) :
    Except JsErr RangeResponse × List RangeReq :=
  let key := w.pmtilesPath archiveName env.pmtilesPath
  let req : RangeReq := ⟨key, offset, length, etag⟩
  match w.bucketGetCond key offset length etag with
  | Option.none => (Except.error JsErr.keyNotFound, [req])
  | Option.some o =>
    match o.body with
    | Option.none => (Except.error JsErr.etagMismatch, [req])
    | Option.some a =>
      (Except.ok ⟨a, Option.some o.etag, o.cacheControl, o.expires⟩, [req])

/-- Outcome of a cache-miss route: the response (or a rethrown exception) plus the
effects performed — edge-cache writes, direct bucket reads, `getZxy` invocations. -/
structure MissOut where
  result : Except JsErr Response
  cachePuts : List (String × Response)
  bucketGets : List String
  zxyCalls : List (Int × Int × Int)

/-- Outcome of the whole `fetch` handler; `cacheLookups` logs `cache.match` calls. -/
structure FetchOut where
  result : Except JsErr Response
  cacheLookups : List String
  cachePuts : List (String × Response)
  bucketGets : List String
  zxyCalls : List (Int × Int × Int)

/-- The `cacheableResponse` closure: stamp the configured `Cache-Control` on the
headers, store that copy under the request URL, then serve a copy that
additionally carries the matched CORS origin (when non-empty) and `Vary: Origin`.
Returns the served response and the cache write. -/
def cacheableResponse (env : Env) (allowedOrigin urlKey : String)
    (body : Option BodyV) (hdrs : List (String × String)) (status : Nat) :
    Response × List (String × Response) :=
  let ch := hset hdrs "Cache-Control" (env.cacheControl.getD "public, max-age=86400")
  let stored : Response := ⟨body, status, ch⟩
  let rh := hset (if allowedOrigin = "" then ch
    else hset ch "Access-Control-Allow-Origin" allowedOrigin) "Vary" "Origin"
  (⟨body, status, rh⟩, [(urlKey, stored)])

/-- Serving a cache hit: copy the cached headers, echo the matched origin when
non-empty, set `Vary: Origin`, keep the cached body and status. -/
def serveCached (allowedOrigin : String) (cached : Response) : Response :=
  let rh := if allowedOrigin = "" then cached.headers
    else hset cached.headers "Access-Control-Allow-Origin" allowedOrigin
  ⟨cached.body, cached.status, hset rh "Vary" "Origin"⟩

/-- The allow-list scan: split `ALLOWED_ORIGINS` on commas; the last entry equal to
the request `Origin` header or to `"*"` wins; empty string when nothing matched. -/
def allowedOriginOf (env : Env) (origin : Option String) : String :=
  match env.allowedOrigins with
  | Option.none => ""
  | Option.some s =>
    (splitChar ',' s).foldl (fun acc o => if Option.some o = origin ∨ o = "*" then o else acc) ""

/-- The `switch (pHeader.tileType)` Content-Type mapping applied to the (empty)
cacheable headers after the tile fetch; `Avif` and `Unknown` have no case. -/
def contentTypeFor : TileType → List (String × String)
  | TileType.Mvt => hset [] "Content-Type" "application/x-protobuf"
  | TileType.Png => hset [] "Content-Type" "image/png"
  | TileType.Jpeg => hset [] "Content-Type" "image/jpeg"
  | TileType.Webp => hset [] "Content-Type" "image/webp"
  | _ => []

/-- The literal pair table of the extension-check loop. -/
def tileTypeExts : List (TileType × String) :=
  [(TileType.Mvt, "mvt"), (TileType.Png, "png"), (TileType.Jpeg, "jpg"),
   (TileType.Webp, "webp"), (TileType.Avif, "avif")]

/-- The body of the extension-check loop: for the first pair whose tile type
matches with a differing extension, either `continue` (the legacy `Mvt`/`pbf`
case) or report the canonical extension of the archive for the 400 response. -/
def extMismatchGo (t : TileType) (e : String) : List (TileType × String) → Option String
  | [] => Option.none
  | (tt, ce) :: rest =>
    if t = tt ∧ e ≠ ce then
      if t = TileType.Mvt ∧ e = "pbf" then extMismatchGo t e rest
      else Option.some ce
    else extMismatchGo t e rest

/-- Returns `some canonical` when the loop would return the 400 mismatch response, `none`
when the requested extension is allowed through. -/
def extMismatch (t : TileType) (e : String) : Option String :=
  extMismatchGo t e tileTypeExts

/-- The probe loop of `checkFonts`: try `fonts/<font>/<glyph>` for each font in
order; first object found is served (200, protobuf content type) through
`cacheableResponse`; exhaustion yields the raw (uncached) 404. -/
def fontLoop (w : World) (env : Env) (allowedOrigin urlKey : String)
    (hdrs : List (String × String)) (glyph : String) : List String → MissOut
  | [] => ⟨Except.ok ⟨Option.some (BodyV.str "Font not found"), 404, []⟩, [], [], []⟩
  | font :: rest =>
    let key := "fonts/" ++ font ++ "/" ++ glyph
    match w.bucketGet key with
    | Option.none =>
      let out := fontLoop w env allowedOrigin urlKey hdrs glyph rest
      { out with bucketGets := key :: out.bucketGets }
    | Option.some o =>
      let h2 := hset hdrs "Content-Type" "application/x-protobuf"
      let rp := cacheableResponse env allowedOrigin urlKey
        (Option.some (BodyV.bytes (o.body.getD []))) h2 200
      ⟨Except.ok rp.1, rp.2, [key], []⟩

/-- Translation of `checkFonts`: decode `%20`, split the key on `/`; the comma-separated family
segment is `parts[1]` (JS throws a TypeError when it is absent) and the glyph
range is `parts[2]` (rendered as the string `"undefined"` by the JS template
literal when absent); then run the probe loop. -/
def checkFonts (w : World) (env : Env) (allowedOrigin urlKey : String)
    (hdrs : List (String × String)) (objectKey : String) : MissOut :=
  match splitChar '/' (decodeSpacesStr objectKey) with
  | [] => ⟨Except.error (JsErr.other "TypeError"), [], [], []⟩
  | [_] => ⟨Except.error (JsErr.other "TypeError"), [], [], []⟩
  | _ :: fam :: rest =>
    fontLoop w env allowedOrigin urlKey hdrs (rest.headD "undefined") (splitChar ',' fam)

/-- The `/styles` passthrough: fetch the object at the decoded key; absent → a
cached 404 "File not found"; present → 200 with a content type inferred from the
final extension of the key (`png`, `json`, else octet-stream). -/
def handleStyles (w : World) (env : Env) (allowedOrigin urlKey : String)
    (objectKey : String) : MissOut :=
  match w.bucketGet objectKey with
  | Option.none =>
    let rp := cacheableResponse env allowedOrigin urlKey
      (Option.some (BodyV.str "File not found")) [] 404
    ⟨Except.ok rp.1, rp.2, [objectKey], []⟩
  | Option.some o =>
    let a := o.body.getD []
    let objectExtension := (splitChar '.' objectKey).getLastD ""
    let contentType :=
      if objectExtension = "png" then "image/png"
      else if objectExtension = "json" then "application/json"
      else "application/octet-stream"
    let rp := cacheableResponse env allowedOrigin urlKey
      (Option.some (BodyV.bytes a)) (hset [] "Content-Type" contentType) 200
    ⟨Except.ok rp.1, rp.2, [objectKey], []⟩

/-- The tile path inside the `try`: header fetch, tile-JSON branch, zoom-bounds
check, extension-check loop, `getZxy`, Content-Type switch, 200/204 split.
`KeyNotFoundError` thrown at any await is caught into a cached 404
"Archive not found" (with whatever headers were set by then); other exceptions
rethrow. -/
def handleTile (w : World) (env : Env) (allowedOrigin urlKey hostname : String)
    (tp : TilePathResult) : MissOut :=
  match w.getHeader tp.name with
  | Except.error JsErr.keyNotFound =>
    let rp := cacheableResponse env allowedOrigin urlKey
      (Option.some (BodyV.str "Archive not found")) [] 404
    ⟨Except.ok rp.1, rp.2, [], []⟩
  | Except.error e => ⟨Except.error e, [], [], []⟩
  | Except.ok pHeader =>
    match tp.tile with
    | Option.none =>
      let hdrs := hset [] "Content-Type" "application/json"
      match w.getTileJson tp.name
        ("https://" ++ env.publicHostname.getD hostname ++ "/" ++ tp.name) with
      | Except.error JsErr.keyNotFound =>
        let rp := cacheableResponse env allowedOrigin urlKey
          (Option.some (BodyV.str "Archive not found")) hdrs 404
        ⟨Except.ok rp.1, rp.2, [], []⟩
      | Except.error e => ⟨Except.error e, [], [], []⟩
      | Except.ok t =>
        let rp := cacheableResponse env allowedOrigin urlKey
          (Option.some (BodyV.str t)) hdrs 200
        ⟨Except.ok rp.1, rp.2, [], []⟩
    | Option.some (z, x, y) =>
      if z < pHeader.minZoom ∨ z > pHeader.maxZoom then
        let rp := cacheableResponse env allowedOrigin urlKey Option.none [] 404
        ⟨Except.ok rp.1, rp.2, [], []⟩
      else
        match extMismatch pHeader.tileType tp.ext with
        | Option.some ce =>
          let rp := cacheableResponse env allowedOrigin urlKey
            (Option.some (BodyV.str
              ("Bad request: requested ." ++ tp.ext ++ " but archive has type ." ++ ce)))
            [] 400
          ⟨Except.ok rp.1, rp.2, [], []⟩
        | Option.none =>
          match w.getZxy tp.name z x y with
          | Except.error JsErr.keyNotFound =>
            let rp := cacheableResponse env allowedOrigin urlKey
              (Option.some (BodyV.str "Archive not found")) [] 404
            ⟨Except.ok rp.1, rp.2, [], [(z, x, y)]⟩
          | Except.error e => ⟨Except.error e, [], [], [(z, x, y)]⟩
          | Except.ok tiledata =>
            let hdrs := contentTypeFor pHeader.tileType
            match tiledata with
            | Option.some d =>
              let rp := cacheableResponse env allowedOrigin urlKey
                (Option.some (BodyV.bytes d)) hdrs 200
              ⟨Except.ok rp.1, rp.2, [], [(z, x, y)]⟩
            | Option.none =>
              let rp := cacheableResponse env allowedOrigin urlKey Option.none hdrs 204
              ⟨Except.ok rp.1, rp.2, [], [(z, x, y)]⟩

/-- The `/list` endpoint: serialize the D1 listing (or rethrow its failure) with
a fixed JSON content type, wildcard CORS and a hard-coded Cache-Control; not
written to the edge cache. -/
def listOut (w : World) : FetchOut :=
  match w.d1Listing with
  | Except.error e => ⟨Except.error e, [], [], [], []⟩
  | Except.ok s =>
    ⟨Except.ok ⟨Option.some (BodyV.str s), 200,
      [("Content-Type", "application/json"),
       ("Access-Control-Allow-Origin", "*"),
       ("Cache-Control", "public, max-age=86400")]⟩, [], [], [], []⟩

/-- Attach the single `cache.match` lookup performed on the miss path. -/
def ofMiss (urlKey : String) (m : MissOut) : FetchOut :=
  ⟨m.result, [urlKey], m.cachePuts, m.bucketGets, m.zxyCalls⟩

/-- The routing performed after an edge-cache miss, in source order: the font
route, the styles route, the invalid-URL 404, then the tile path. -/
def missRoute (w : World) (env : Env) (req : Request) : MissOut :=
  if ["GET", "HEAD", "OPTIONS"].contains req.method
      && startsWithJs req.pathname "/fonts" then
    checkFonts w env (allowedOriginOf env req.origin) req.url [] (req.pathname.drop 1)
  else if ["GET", "HEAD", "OPTIONS"].contains req.method
      && startsWithJs req.pathname "/styles" then
    handleStyles w env (allowedOriginOf env req.origin) req.url (req.pathname.drop 1)
  else if (w.tilePath req.pathname).ok = false then
    ⟨Except.ok ⟨Option.some (BodyV.str "Invalid URL"), 404, []⟩, [], [], []⟩
  else
    handleTile w env (allowedOriginOf env req.origin) req.url req.hostname
      (w.tilePath req.pathname)

/-- The `fetch` handler of the worker, in source order: the `/list` route, the POST
405, the allow-list scan, the edge-cache lookup (a hit is served immediately),
then the cache-miss routing of `missRoute`. -/
def fetch (w : World) (env : Env) (req : Request) : FetchOut :=
  if req.pathname = "/list" ∨ req.pathname = "/list/" then
    listOut w
  else if toUpperJs req.method = "POST" then
    ⟨Except.ok ⟨Option.none, 405, []⟩, [], [], [], []⟩
  else
    match w.cacheMatch req.url with
    | Option.some cached =>
      ⟨Except.ok (serveCached (allowedOriginOf env req.origin) cached),
        [req.url], [], [], []⟩
    | Option.none =>
      ofMiss req.url (missRoute w env req)

/-- Status of the final response, `none` when an exception escaped. -/
def FetchOut.statusOf (o : FetchOut) : Option Nat :=
  match o.result with
  | Except.ok r => Option.some r.status
  | Except.error _ => Option.none

/-- Body of the final response, `none` when empty or when an exception escaped. -/
def FetchOut.bodyOf (o : FetchOut) : Option BodyV :=
  match o.result with
  | Except.ok r => r.body
  | Except.error _ => Option.none

/-- A header of the final response. -/
def FetchOut.headerOf (o : FetchOut) (k : String) : Option String :=
  match o.result with
  | Except.ok r => hget r.headers k
  | Except.error _ => Option.none

/-! Spec-side definitions (written from the words of the specification, for
comparison with the source-derived definitions above). -/

/-- The fixed canonical-extension table of the spec: Mvt→mvt, Png→png, Jpeg→jpg,
Webp→webp, Avif→avif; no entry otherwise. -/
def canonicalExt : TileType → Option String
  | TileType.Mvt => Option.some "mvt"
  | TileType.Png => Option.some "png"
  | TileType.Jpeg => Option.some "jpg"
  | TileType.Webp => Option.some "webp"
  | TileType.Avif => Option.some "avif"
  | TileType.Unknown => Option.none

/-- The acceptance predicate of the spec: the requested extension equals the canonical
extension of the archive tile type, or the legacy `(Mvt, "pbf")` pair. -/
def AcceptExt (t : TileType) (e : String) : Prop :=
  canonicalExt t = Option.some e ∨ (t = TileType.Mvt ∧ e = "pbf")

instance (t : TileType) (e : String) : Decidable (AcceptExt t e) := by
  unfold AcceptExt
  infer_instance

/-- Spec-side font probe: the bytes stored at `fonts/<font>/<glyph>`, if any. -/
def fontProbe (w : World) (glyph font : String) : Option (List Nat) :=
  (w.bucketGet ("fonts/" ++ font ++ "/" ++ glyph)).map (fun o => o.body.getD [])

/-- The served response for a successful font probe. -/
def fontHitResp (env : Env) (allowedOrigin urlKey : String)
    (hdrs : List (String × String)) (b : List Nat) : Response :=
  (cacheableResponse env allowedOrigin urlKey (Option.some (BodyV.bytes b))
    (hset hdrs "Content-Type" "application/x-protobuf") 200).1

/-- A response carrying neither CORS header. -/
def corsFreeResp (r : Response) : Bool :=
  (hget r.headers "Access-Control-Allow-Origin").isNone && (hget r.headers "Vary").isNone

/-! Helper lemmas about the header association list. -/

theorem hget_cons (a : String × String) (l : List (String × String)) (k : String) :
    hget (a :: l) k = if a.1 = k then Option.some a.2 else hget l k := by
  by_cases h : a.1 = k <;> simp [hget, List.find?, h]

theorem hset_cons (a : String × String) (l : List (String × String)) (k v : String) :
    hset (a :: l) k v = if a.1 = k then hset l k v else a :: hset l k v := by
  by_cases h : a.1 = k <;> simp [hset, List.filter_cons, h]

theorem hget_hset_self (h : List (String × String)) (k v : String) :
    hget (hset h k v) k = Option.some v := by
  induction h with
  | nil => simp [hset, hget, List.find?]
  | cons a t ih =>
    rw [hset_cons]
    by_cases hk : a.1 = k
    · simp [hk, ih]
    · simp [hget_cons, hk, ih]

theorem hget_hset_ne (h : List (String × String)) (k v k' : String) (hne : k' ≠ k) :
    hget (hset h k v) k' = hget h k' := by
  induction h with
  | nil =>
    have : hset ([] : List (String × String)) k v = [(k, v)] := by simp [hset]
    rw [this, hget_cons]
    simp [hget, Ne.symm hne]
  | cons a t ih =>
    rw [hset_cons]
    by_cases hk : a.1 = k
    · rw [if_pos hk, ih, hget_cons,
        if_neg (fun hc => hne (by rw [← hc, hk]))]
    · rw [if_neg hk, hget_cons, hget_cons]
      by_cases hk' : a.1 = k' <;> simp [hk', ih]

/-- The extension-check loop of the source agrees with the table of the spec plus legacy
pair everywhere the table has an entry; for `Unknown` (no table entry) the loop
matches nothing and lets every extension through. -/
theorem extMismatch_eq_spec (t : TileType) (e : String) :
    extMismatch t e = if AcceptExt t e then Option.none else canonicalExt t := by
  cases t with
  | Mvt =>
    by_cases h1 : e = "mvt"
    · simp [extMismatch, tileTypeExts, extMismatchGo, AcceptExt, canonicalExt, h1]
    · by_cases h2 : e = "pbf"
      · simp [extMismatch, tileTypeExts, extMismatchGo, AcceptExt, canonicalExt, h1, h2]
      · simp [extMismatch, tileTypeExts, extMismatchGo, AcceptExt, canonicalExt, h1, h2,
          Ne.symm h1]
  | Png =>
    by_cases h1 : e = "png"
    · simp [extMismatch, tileTypeExts, extMismatchGo, AcceptExt, canonicalExt, h1]
    · simp [extMismatch, tileTypeExts, extMismatchGo, AcceptExt, canonicalExt, h1,
        Ne.symm h1]
  | Jpeg =>
    by_cases h1 : e = "jpg"
    · simp [extMismatch, tileTypeExts, extMismatchGo, AcceptExt, canonicalExt, h1]
    · simp [extMismatch, tileTypeExts, extMismatchGo, AcceptExt, canonicalExt, h1,
        Ne.symm h1]
  | Webp =>
    by_cases h1 : e = "webp"
    · simp [extMismatch, tileTypeExts, extMismatchGo, AcceptExt, canonicalExt, h1]
    · simp [extMismatch, tileTypeExts, extMismatchGo, AcceptExt, canonicalExt, h1,
        Ne.symm h1]
  | Avif =>
    by_cases h1 : e = "avif"
    · simp [extMismatch, tileTypeExts, extMismatchGo, AcceptExt, canonicalExt, h1]
    · simp [extMismatch, tileTypeExts, extMismatchGo, AcceptExt, canonicalExt, h1,
        Ne.symm h1]
  | Unknown =>
    simp [extMismatch, tileTypeExts, extMismatchGo, AcceptExt, canonicalExt]

/-- Routing reduction: a request that is not the listing path, is not a POST,
misses the edge cache, matches neither the fonts nor the styles route, and
parses as a valid tile path is handled by the tile path, with the one cache
lookup logged. -/
theorem fetch_miss_tile (w : World) (env : Env) (req : Request) (tp : TilePathResult)
    (h1 : req.pathname ≠ "/list") (h2 : req.pathname ≠ "/list/")
    (h3 : toUpperJs req.method ≠ "POST")
    (h4 : w.cacheMatch req.url = Option.none)
    (h5 : (["GET", "HEAD", "OPTIONS"].contains req.method
      && startsWithJs req.pathname "/fonts") = false)
    (h6 : (["GET", "HEAD", "OPTIONS"].contains req.method
      && startsWithJs req.pathname "/styles") = false)
    (h7 : w.tilePath req.pathname = tp) (h8 : tp.ok = true) :
    fetch w env req =
      ofMiss req.url
        (handleTile w env (allowedOriginOf env req.origin) req.url req.hostname tp) := by
  unfold fetch missRoute
  rw [if_neg (by simp [h1, h2]), if_neg h3, h4, h7]
  rw [if_neg (by simp only [h5]; decide), if_neg (by simp only [h6]; decide),
    if_neg (by simp [h8])]

/-- The probe loop returns the first listed family whose glyph object exists,
served through `cacheableResponse` with the protobuf content type, and the raw
404 when every probe misses. -/
theorem fontLoop_result_eq (w : World) (env : Env) (ao u : String)
    (hdrs : List (String × String)) (glyph : String) (fs : List String) :
    (fontLoop w env ao u hdrs glyph fs).result =
      (match fs.findSome? (fontProbe w glyph) with
       | Option.some b => Except.ok (fontHitResp env ao u hdrs b)
       | Option.none =>
          Except.ok ⟨Option.some (BodyV.str "Font not found"), 404, []⟩) := by
  induction fs with
  | nil => simp [fontLoop, List.findSome?]
  | cons f rest ih =>
    rw [List.findSome?_cons]
    cases hb : w.bucketGet ("fonts/" ++ f ++ "/" ++ glyph) with
    | none => simp [fontLoop, hb, fontProbe, ih]
    | some o => simp [fontLoop, hb, fontProbe, fontHitResp]

/-- Serve-time headers added by `cacheableResponse` never shadow other keys. -/
theorem hget_cacheable_served (env : Env) (ao u : String) (b : Option BodyV)
    (hdrs : List (String × String)) (st : Nat) (k : String)
    (hk1 : k ≠ "Vary") (hk2 : k ≠ "Access-Control-Allow-Origin")
    (hk3 : k ≠ "Cache-Control") :
    hget (cacheableResponse env ao u b hdrs st).1.headers k = hget hdrs k := by
  unfold cacheableResponse
  by_cases hao : ao = ""
  · simp [hao, hget_hset_ne _ _ _ _ hk1, hget_hset_ne _ _ _ _ hk3]
  · simp [hao, hget_hset_ne _ _ _ _ hk1, hget_hset_ne _ _ _ _ hk2,
      hget_hset_ne _ _ _ _ hk3]

/-- Success projection of an `Except`. -/
def okData {ε α : Type} : Except ε α → Option α
  | Except.ok a => Option.some a
  | Except.error _ => Option.none

/-! Concrete fixtures for witnesses and counterexamples. -/

/-- An environment with no bindings configured. -/
def env0 : Env := ⟨Option.none, Option.none, Option.none, Option.none⟩

/-- A world in which every collaborator is empty. -/
def baseW : World where
  cacheMatch := fun _ => Option.none
  bucketGet := fun _ => Option.none
  bucketGetCond := fun _ _ _ _ => Option.none
  pmtilesPath := fun n _ => n
  tilePath := fun _ => ⟨false, "", Option.none, ""⟩
  d1Listing := Except.ok "{}"
  getHeader := fun _ => Except.error (JsErr.other "no archive")
  getTileJson := fun _ _ => Except.ok "{}"
  getZxy := fun _ _ _ _ => Except.ok Option.none

/-- C8: decompression with tag `None` or `Unknown` returns the input unchanged,
with `Gzip` performs the gzip inflate, and with any other tag (`Brotli`, `Zstd`)
fails with the unsupported-compression error rather than passing bytes through. -/
theorem nativeDecompress_cases (gz : List Nat → List Nat) (buf : List Nat) :
    nativeDecompress gz buf Compression.None = Except.ok buf ∧
    nativeDecompress gz buf Compression.Unknown = Except.ok buf ∧
    nativeDecompress gz buf Compression.Gzip = Except.ok (gz buf) ∧
    nativeDecompress gz buf Compression.Brotli =
      Except.error "Compression method not supported" ∧
    nativeDecompress gz buf Compression.Zstd =
      Except.error "Compression method not supported" := by
  refine ⟨?_, ?_, ?_, ?_, ?_⟩ <;> simp [nativeDecompress]

/-- C4: each `R2Source.getBytes` call issues exactly one bucket read and yields
exactly one of three outcomes — the not-found error iff the object is absent,
the ETag-mismatch error iff the object exists without a body (unsatisfied
conditional), and otherwise the bytes with the etag of the object; a body is never
returned together with a mismatch signal and no internal retry happens. -/
theorem getBytes_outcome_classification (w : World) (env : Env) (nm : String)
    (off len : Nat) (et : Option String) :
    (R2Source.getBytes w env nm off len et).2.length = 1 ∧
    ((R2Source.getBytes w env nm off len et).1 = Except.error JsErr.keyNotFound ↔
      w.bucketGetCond (w.pmtilesPath nm env.pmtilesPath) off len et = Option.none) ∧
    ((R2Source.getBytes w env nm off len et).1 = Except.error JsErr.etagMismatch ↔
      ∃ o, w.bucketGetCond (w.pmtilesPath nm env.pmtilesPath) off len et = Option.some o ∧
        o.body = Option.none) ∧
    okData (R2Source.getBytes w env nm off len et).1 =
      (w.bucketGetCond (w.pmtilesPath nm env.pmtilesPath) off len et).bind
        (fun o => o.body.map (fun a =>
          (⟨a, Option.some o.etag, o.cacheControl, o.expires⟩ : RangeResponse))) := by
  unfold R2Source.getBytes
  cases hb : w.bucketGetCond (w.pmtilesPath nm env.pmtilesPath) off len et with
  | none => simp [hb, okData]
  | some o =>
    cases ho : o.body with
    | none => simp [hb, ho, okData]
    | some a => simp [hb, ho, okData]

/-- World for the out-of-bounds zoom witness: archive `a` with zoom range 0–10. -/
def wZoom : World := { baseW with
  tilePath := fun _ => ⟨true, "a", Option.some (12, 0, 0), "mvt"⟩
  getHeader := fun _ => Except.ok ⟨0, 10, TileType.Mvt⟩ }

/-- A GET tile request fixture. -/
def reqTile : Request :=
  ⟨"https://h/a/12/0/0.mvt", "/a/12/0/0.mvt", "h", "GET", Option.none⟩

/-- C2: a tile request whose parsed zoom lies strictly below `minZoom` or above
`maxZoom` is answered 404 with an empty body, and the `getZxy` of the archive reader
is never invoked for the request. -/
theorem zoom_out_of_bounds_404 (w : World) (env : Env) (req : Request)
    (tp : TilePathResult) (hd : Header) (z x y : Int)
    (h1 : req.pathname ≠ "/list") (h2 : req.pathname ≠ "/list/")
    (h3 : toUpperJs req.method ≠ "POST")
    (h4 : w.cacheMatch req.url = Option.none)
    (h5 : (["GET", "HEAD", "OPTIONS"].contains req.method
      && startsWithJs req.pathname "/fonts") = false)
    (h6 : (["GET", "HEAD", "OPTIONS"].contains req.method
      && startsWithJs req.pathname "/styles") = false)
    (h7 : w.tilePath req.pathname = tp) (h8 : tp.ok = true)
    (h9 : w.getHeader tp.name = Except.ok hd)
    (h10 : tp.tile = Option.some (z, x, y))
    (h11 : z < hd.minZoom ∨ z > hd.maxZoom) :
    (fetch w env req).statusOf = Option.some 404 ∧
    (fetch w env req).bodyOf = Option.none ∧
    (fetch w env req).zxyCalls = [] := by
  rw [fetch_miss_tile w env req tp h1 h2 h3 h4 h5 h6 h7 h8]
  simp [handleTile, h9, h10, h11, ofMiss, cacheableResponse,
    FetchOut.statusOf, FetchOut.bodyOf]

/-- Witness for `zoom_out_of_bounds_404`: zoom 12 against bounds [0, 10]. -/
theorem zoom_out_of_bounds_404_witness :
    ((12 : Int) < 0 ∨ (12 : Int) > 10) ∧
    ((fetch wZoom env0 reqTile).statusOf = Option.some 404 ∧
     (fetch wZoom env0 reqTile).bodyOf = Option.none ∧
     (fetch wZoom env0 reqTile).zxyCalls = []) :=
  ⟨by decide,
   zoom_out_of_bounds_404 wZoom env0 reqTile ⟨true, "a", Option.some (12, 0, 0), "mvt"⟩
     ⟨0, 10, TileType.Mvt⟩ 12 0 0 (by decide) (by decide) (by decide) rfl (by decide)
     (by decide) rfl rfl rfl rfl (by decide)⟩

/-- World for the missing-tile witness: archive `a`, zoom range 0–10, Mvt,
`getZxy` finds no tile (the default of the base world). -/
def wNoTile : World := { baseW with
  tilePath := fun _ => ⟨true, "a", Option.some (5, 3, 2), "mvt"⟩
  getHeader := fun _ => Except.ok ⟨0, 10, TileType.Mvt⟩ }

/-- A GET request for tile 5/3/2 as mvt. -/
def reqMvt : Request :=
  ⟨"https://h/a/5/3/2.mvt", "/a/5/3/2.mvt", "h", "GET", Option.none⟩

/-- C9: an in-bounds tile request that passes the extension check but for which
`getZxy` returns no tile data yields 204 with an empty body, and the 204 is
written to the edge cache like a success (with the configured Cache-Control). -/
theorem empty_tile_204_cached (w : World) (env : Env) (req : Request)
    (tp : TilePathResult) (hd : Header) (z x y : Int)
    (h1 : req.pathname ≠ "/list") (h2 : req.pathname ≠ "/list/")
    (h3 : toUpperJs req.method ≠ "POST")
    (h4 : w.cacheMatch req.url = Option.none)
    (h5 : (["GET", "HEAD", "OPTIONS"].contains req.method
      && startsWithJs req.pathname "/fonts") = false)
    (h6 : (["GET", "HEAD", "OPTIONS"].contains req.method
      && startsWithJs req.pathname "/styles") = false)
    (h7 : w.tilePath req.pathname = tp) (h8 : tp.ok = true)
    (h9 : w.getHeader tp.name = Except.ok hd)
    (h10 : tp.tile = Option.some (z, x, y))
    (h11 : ¬(z < hd.minZoom ∨ z > hd.maxZoom))
    (h12 : extMismatch hd.tileType tp.ext = Option.none)
    (h13 : w.getZxy tp.name z x y = Except.ok Option.none) :
    (fetch w env req).statusOf = Option.some 204 ∧
    (fetch w env req).bodyOf = Option.none ∧
    (fetch w env req).cachePuts =
      [(req.url, ⟨Option.none, 204,
        hset (contentTypeFor hd.tileType) "Cache-Control"
          (env.cacheControl.getD "public, max-age=86400")⟩)] := by
  rw [fetch_miss_tile w env req tp h1 h2 h3 h4 h5 h6 h7 h8]
  simp [handleTile, h9, h10, h11, h12, h13, ofMiss, cacheableResponse,
    FetchOut.statusOf, FetchOut.bodyOf]

/-- Witness for `empty_tile_204_cached`: tile 5/3/2 absent from archive `a`. -/
theorem empty_tile_204_cached_witness :
    wNoTile.getZxy "a" 5 3 2 = Except.ok Option.none ∧
    ((fetch wNoTile env0 reqMvt).statusOf = Option.some 204 ∧
     (fetch wNoTile env0 reqMvt).bodyOf = Option.none ∧
     (fetch wNoTile env0 reqMvt).cachePuts =
       [("https://h/a/5/3/2.mvt", ⟨Option.none, 204,
         hset (contentTypeFor TileType.Mvt) "Cache-Control"
           (env0.cacheControl.getD "public, max-age=86400")⟩)]) :=
  ⟨rfl,
   empty_tile_204_cached wNoTile env0 reqMvt ⟨true, "a", Option.some (5, 3, 2), "mvt"⟩
     ⟨0, 10, TileType.Mvt⟩ 5 3 2 (by decide) (by decide) (by decide) rfl (by decide)
     (by decide) rfl rfl rfl rfl (by decide) (by decide) rfl⟩

/-- World for the Avif witness: archive `a` is Avif and tile 5/3/2 exists. -/
def wAvif : World := { baseW with
  tilePath := fun _ => ⟨true, "a", Option.some (5, 3, 2), "avif"⟩
  getHeader := fun _ => Except.ok ⟨0, 10, TileType.Avif⟩
  getZxy := fun _ _ _ _ => Except.ok (Option.some [9, 9]) }

/-- A GET request for tile 5/3/2 as avif. -/
def reqAvif : Request :=
  ⟨"https://h/a/5/3/2.avif", "/a/5/3/2.avif", "h", "GET", Option.none⟩

/-- C10: an accepted tile request against an Avif archive is served 200 with the
tile bytes but without any Content-Type header — the content-type switch covers
only Mvt, Png, Jpeg and Webp. -/
theorem avif_no_content_type (w : World) (env : Env) (req : Request)
    (tp : TilePathResult) (hd : Header) (z x y : Int) (d : List Nat)
    (h1 : req.pathname ≠ "/list") (h2 : req.pathname ≠ "/list/")
    (h3 : toUpperJs req.method ≠ "POST")
    (h4 : w.cacheMatch req.url = Option.none)
    (h5 : (["GET", "HEAD", "OPTIONS"].contains req.method
      && startsWithJs req.pathname "/fonts") = false)
    (h6 : (["GET", "HEAD", "OPTIONS"].contains req.method
      && startsWithJs req.pathname "/styles") = false)
    (h7 : w.tilePath req.pathname = tp) (h8 : tp.ok = true)
    (h9 : w.getHeader tp.name = Except.ok hd)
    (h10 : tp.tile = Option.some (z, x, y))
    (h11 : ¬(z < hd.minZoom ∨ z > hd.maxZoom))
    (h12 : extMismatch hd.tileType tp.ext = Option.none)
    (hT : hd.tileType = TileType.Avif)
    (h13 : w.getZxy tp.name z x y = Except.ok (Option.some d)) :
    (fetch w env req).statusOf = Option.some 200 ∧
    (fetch w env req).bodyOf = Option.some (BodyV.bytes d) ∧
    (fetch w env req).headerOf "Content-Type" = Option.none := by
  rw [fetch_miss_tile w env req tp h1 h2 h3 h4 h5 h6 h7 h8]
  refine ⟨?_, ?_, ?_⟩
  · simp [handleTile, h9, h10, h11, h12, h13, ofMiss, cacheableResponse,
      FetchOut.statusOf]
  · simp [handleTile, h9, h10, h11, h12, h13, ofMiss, cacheableResponse,
      FetchOut.bodyOf]
  · simp only [handleTile, h9, h10, h13, ofMiss, FetchOut.headerOf]
    rw [if_neg h11]
    simp only [h12]
    rw [hget_cacheable_served _ _ _ _ _ _ _ (by decide) (by decide) (by decide), hT]
    simp [contentTypeFor, hget]

/-- Witness for `avif_no_content_type`: tile 5/3/2 of the Avif archive `a`. -/
theorem avif_no_content_type_witness :
    wAvif.getHeader "a" = Except.ok ⟨0, 10, TileType.Avif⟩ ∧
    ((fetch wAvif env0 reqAvif).statusOf = Option.some 200 ∧
     (fetch wAvif env0 reqAvif).bodyOf = Option.some (BodyV.bytes [9, 9]) ∧
     (fetch wAvif env0 reqAvif).headerOf "Content-Type" = Option.none) :=
  ⟨rfl,
   avif_no_content_type wAvif env0 reqAvif ⟨true, "a", Option.some (5, 3, 2), "avif"⟩
     ⟨0, 10, TileType.Avif⟩ 5 3 2 [9, 9] (by decide) (by decide) (by decide) rfl
     (by decide) (by decide) rfl rfl rfl rfl (by decide) (by decide) rfl rfl⟩

/-- World for the C1 counterexample: archive `a` has tile type `Unknown`. -/
def wUnknown : World := { baseW with
  tilePath := fun _ => ⟨true, "a", Option.some (0, 0, 0), "foo"⟩
  getHeader := fun _ => Except.ok ⟨0, 10, TileType.Unknown⟩ }

/-- A GET request with an extension matching no canonical table entry. -/
def reqFoo : Request :=
  ⟨"https://h/a/0/0/0.foo", "/a/0/0/0.foo", "h", "GET", Option.none⟩

/-- C1 counterexample: for tileType `Unknown` (a header tile type with no entry
in the canonical table) the extension-check loop matches no pair, so a request
with extension "foo" — accepted by the claimed rule for no tile type — is not
rejected with 400: the tile fetch is performed and a 204 is served. -/
theorem extension_check_unknown_counterexample :
    wUnknown.getHeader "a" = Except.ok ⟨0, 10, TileType.Unknown⟩ ∧
    (wUnknown.tilePath "/a/0/0/0.foo").ext = "foo" ∧
    ¬ AcceptExt TileType.Unknown "foo" ∧
    (fetch wUnknown env0 reqFoo).zxyCalls = [(0, 0, 0)] ∧
    (fetch wUnknown env0 reqFoo).statusOf = Option.some 204 :=
  ⟨rfl, rfl, by decide, rfl, rfl⟩

/-- C1 (amended to the five tile types with a canonical extension): for a
cache-missing in-bounds tile request whose archive tile type is not `Unknown`,
the tile bytes are fetched iff the extension is the canonical one or the legacy
`(Mvt, "pbf")` pair, and otherwise the response is a 400 whose body names both
the requested and the canonical extension and `getZxy` is not called. -/
theorem tile_extension_check_table (w : World) (env : Env) (req : Request)
    (tp : TilePathResult) (hd : Header) (z x y : Int)
    (h1 : req.pathname ≠ "/list") (h2 : req.pathname ≠ "/list/")
    (h3 : toUpperJs req.method ≠ "POST")
    (h4 : w.cacheMatch req.url = Option.none)
    (h5 : (["GET", "HEAD", "OPTIONS"].contains req.method
      && startsWithJs req.pathname "/fonts") = false)
    (h6 : (["GET", "HEAD", "OPTIONS"].contains req.method
      && startsWithJs req.pathname "/styles") = false)
    (h7 : w.tilePath req.pathname = tp) (h8 : tp.ok = true)
    (h9 : w.getHeader tp.name = Except.ok hd)
    (h10 : tp.tile = Option.some (z, x, y))
    (h11 : ¬(z < hd.minZoom ∨ z > hd.maxZoom))
    (h12 : hd.tileType ≠ TileType.Unknown) :
    if AcceptExt hd.tileType tp.ext then
      (fetch w env req).zxyCalls = [(z, x, y)]
    else
      (fetch w env req).zxyCalls = [] ∧
      (fetch w env req).statusOf = Option.some 400 ∧
      (fetch w env req).bodyOf = Option.some (BodyV.str
        ("Bad request: requested ." ++ tp.ext ++ " but archive has type ." ++
          (canonicalExt hd.tileType).getD "")) := by
  rw [fetch_miss_tile w env req tp h1 h2 h3 h4 h5 h6 h7 h8]
  by_cases hacc : AcceptExt hd.tileType tp.ext
  · rw [if_pos hacc]
    have hm : extMismatch hd.tileType tp.ext = Option.none := by
      rw [extMismatch_eq_spec, if_pos hacc]
    cases hz : w.getZxy tp.name z x y with
    | error e =>
      cases e <;> simp [handleTile, h9, h10, h11, hm, hz, ofMiss]
    | ok td =>
      cases td <;> simp [handleTile, h9, h10, h11, hm, hz, ofMiss]
  · rw [if_neg hacc]
    have hce : canonicalExt hd.tileType =
        Option.some ((canonicalExt hd.tileType).getD "") := by
      cases htt : hd.tileType
      · exact absurd htt h12
      all_goals simp [canonicalExt]
    have hm : extMismatch hd.tileType tp.ext =
        Option.some ((canonicalExt hd.tileType).getD "") := by
      rw [extMismatch_eq_spec, if_neg hacc]
      exact hce
    simp [handleTile, h9, h10, h11, hm, ofMiss, cacheableResponse,
      FetchOut.statusOf, FetchOut.bodyOf]

/-- World for the amended-C1 witness: a Mvt archive asked for `.png`. -/
def wMvtPng : World := { baseW with
  tilePath := fun _ => ⟨true, "a", Option.some (5, 3, 2), "png"⟩
  getHeader := fun _ => Except.ok ⟨0, 10, TileType.Mvt⟩ }

/-- A GET request for tile 5/3/2 as png. -/
def reqPng : Request :=
  ⟨"https://h/a/5/3/2.png", "/a/5/3/2.png", "h", "GET", Option.none⟩

/-- Witness for `tile_extension_check_table`: `.png` against a Mvt archive is
rejected 400 with both extensions named, without a tile fetch. -/
theorem tile_extension_check_table_witness :
    (⟨0, 10, TileType.Mvt⟩ : Header).tileType ≠ TileType.Unknown ∧
    (if AcceptExt TileType.Mvt "png" then
      (fetch wMvtPng env0 reqPng).zxyCalls = [(5, 3, 2)]
    else
      (fetch wMvtPng env0 reqPng).zxyCalls = [] ∧
      (fetch wMvtPng env0 reqPng).statusOf = Option.some 400 ∧
      (fetch wMvtPng env0 reqPng).bodyOf = Option.some (BodyV.str
        ("Bad request: requested ." ++ "png" ++ " but archive has type ." ++
          (canonicalExt TileType.Mvt).getD ""))) :=
  ⟨by decide,
   tile_extension_check_table wMvtPng env0 reqPng ⟨true, "a", Option.some (5, 3, 2), "png"⟩
     ⟨0, 10, TileType.Mvt⟩ 5 3 2 (by decide) (by decide) (by decide) rfl (by decide)
     (by decide) rfl rfl rfl rfl (by decide) (by decide)⟩

/-- World with a distinctive cache entry for every URL and a distinctive listing. -/
def wList : World := { baseW with
  cacheMatch := fun _ => Option.some ⟨Option.some (BodyV.str "CACHED"), 299, []⟩
  d1Listing := Except.ok "LISTING" }

/-- A GET request for the listing path. -/
def reqList : Request := ⟨"https://h/list", "/list", "h", "GET", Option.none⟩

/-- C3 counterexample: for the listing path the edge cache is never consulted
(`cacheLookups = []`) and the listing handler runs even though the URL is
present in the cache — the cached 299 entry is not served. -/
theorem cache_lookup_order_counterexample :
    (wList.cacheMatch reqList.url).isSome = true ∧
    (fetch wList env0 reqList).cacheLookups = [] ∧
    (fetch wList env0 reqList).statusOf = Option.some 200 ∧
    (fetch wList env0 reqList).bodyOf = Option.some (BodyV.str "LISTING") :=
  ⟨rfl, rfl, rfl, rfl⟩

/-- C3 (amended): after the listing-path check and the POST check, the
edge-cache lookup under the full request URL precedes the remaining routing,
and a hit short-circuits the font, style and tile handlers — the response is
the cached entry (CORS re-applied) and no cache write, direct bucket read or
tile fetch happens. -/
theorem cache_hit_short_circuit (w : World) (env : Env) (req : Request) (c : Response)
    (h1 : req.pathname ≠ "/list") (h2 : req.pathname ≠ "/list/")
    (h3 : toUpperJs req.method ≠ "POST")
    (h4 : w.cacheMatch req.url = Option.some c) :
    fetch w env req =
      ⟨Except.ok (serveCached (allowedOriginOf env req.origin) c),
        [req.url], [], [], []⟩ := by
  unfold fetch
  rw [if_neg (by simp [h1, h2]), if_neg h3, h4]

/-- World with a cache entry, used to witness the short-circuit. -/
def wHit : World := { baseW with
  cacheMatch := fun _ =>
    Option.some ⟨Option.some (BodyV.str "CACHED"), 200, [("X-Test", "y")]⟩ }

/-- A GET request for a font path (which a cache hit must short-circuit). -/
def reqHit : Request :=
  ⟨"https://h/fonts/A/0-255.pbf", "/fonts/A/0-255.pbf", "h", "GET", Option.none⟩

/-- Witness for `cache_hit_short_circuit`: a cached font URL is served from the
cache without running the font handler. -/
theorem cache_hit_short_circuit_witness :
    wHit.cacheMatch reqHit.url =
      Option.some ⟨Option.some (BodyV.str "CACHED"), 200, [("X-Test", "y")]⟩ ∧
    fetch wHit env0 reqHit =
      ⟨Except.ok (serveCached (allowedOriginOf env0 reqHit.origin)
        ⟨Option.some (BodyV.str "CACHED"), 200, [("X-Test", "y")]⟩),
        [reqHit.url], [], [], []⟩ :=
  ⟨rfl, cache_hit_short_circuit wHit env0 reqHit
    ⟨Option.some (BodyV.str "CACHED"), 200, [("X-Test", "y")]⟩
    (by decide) (by decide) (by decide) rfl⟩

/-- World serving tile 5/3/2 of a Mvt archive for any method. -/
def wDel : World := { baseW with
  tilePath := fun _ => ⟨true, "a", Option.some (5, 3, 2), "mvt"⟩
  getHeader := fun _ => Except.ok ⟨0, 10, TileType.Mvt⟩
  getZxy := fun _ _ _ _ => Except.ok (Option.some [1, 2]) }

/-- A DELETE tile request. -/
def reqDelete : Request :=
  ⟨"https://h/a/5/3/2.mvt", "/a/5/3/2.mvt", "h", "DELETE", Option.none⟩

/-- C6 counterexample: a DELETE request (neither GET, HEAD nor OPTIONS) outside
the listing path is not rejected with 405 — the tile path serves it with 200. -/
theorem method_check_counterexample :
    reqDelete.method = "DELETE" ∧
    reqDelete.pathname ≠ "/list" ∧
    (fetch wDel env0 reqDelete).statusOf = Option.some 200 ∧
    (fetch wDel env0 reqDelete).statusOf ≠ Option.some 405 :=
  ⟨rfl, by decide, rfl, by decide⟩

/-- C6 (amended): outside the listing path exactly the requests whose method
uppercases to "POST" are rejected with 405 (empty body, no effects); other
non-GET/HEAD/OPTIONS methods are not method-checked (see the counterexample). -/
theorem post_method_405 (w : World) (env : Env) (req : Request)
    (h1 : req.pathname ≠ "/list") (h2 : req.pathname ≠ "/list/")
    (h3 : toUpperJs req.method = "POST") :
    fetch w env req = ⟨Except.ok ⟨Option.none, 405, []⟩, [], [], [], []⟩ := by
  unfold fetch
  rw [if_neg (by simp [h1, h2]), if_pos h3]

/-- A lower-case post request outside the listing path. -/
def reqPost : Request := ⟨"https://h/x", "/x", "h", "post", Option.none⟩

/-- Witness for `post_method_405`: a lower-case "post" method is normalized and rejected 405. -/
theorem post_method_405_witness :
    toUpperJs reqPost.method = "POST" ∧
    fetch baseW env0 reqPost = ⟨Except.ok ⟨Option.none, 405, []⟩, [], [], [], []⟩ :=
  ⟨rfl, post_method_405 baseW env0 reqPost (by decide) (by decide) rfl⟩

/-- The stored copy written by `cacheableResponse` stays CORS-free whenever the
headers it was given are. -/
theorem corsFree_cacheable_puts (env : Env) (ao u : String) (b : Option BodyV)
    (hdrs : List (String × String)) (st : Nat)
    (hA : hget hdrs "Access-Control-Allow-Origin" = Option.none)
    (hV : hget hdrs "Vary" = Option.none) :
    ((cacheableResponse env ao u b hdrs st).2.all (fun p => corsFreeResp p.2)) = true := by
  unfold cacheableResponse corsFreeResp
  simp [hget_hset_ne _ _ _ _
      (show "Access-Control-Allow-Origin" ≠ "Cache-Control" by decide),
    hget_hset_ne _ _ _ _ (show "Vary" ≠ "Cache-Control" by decide), hA, hV]

/-- Headers holding only a Content-Type are CORS-free. -/
theorem corsFree_hdrs_ct (v : String) :
    hget (hset [] "Content-Type" v) "Access-Control-Allow-Origin" = Option.none ∧
    hget (hset [] "Content-Type" v) "Vary" = Option.none := by
  constructor <;> rw [hget_hset_ne _ _ _ _ (by decide)] <;> rfl

/-- The tile content-type switch yields CORS-free headers for every tile type. -/
theorem corsFree_contentTypeFor (t : TileType) :
    hget (contentTypeFor t) "Access-Control-Allow-Origin" = Option.none ∧
    hget (contentTypeFor t) "Vary" = Option.none := by
  cases t <;> exact ⟨by decide, by decide⟩

/-- The font probe loop writes only CORS-free copies to the cache. -/
theorem fontLoop_puts_corsFree (w : World) (env : Env) (ao u : String)
    (hdrs : List (String × String)) (glyph : String)
    (hA : hget hdrs "Access-Control-Allow-Origin" = Option.none)
    (hV : hget hdrs "Vary" = Option.none) (fs : List String) :
    ((fontLoop w env ao u hdrs glyph fs).cachePuts.all (fun p => corsFreeResp p.2)) = true := by
  induction fs with
  | nil => rfl
  | cons f rest ih =>
    cases hb : w.bucketGet ("fonts/" ++ f ++ "/" ++ glyph) with
    | none => simpa [fontLoop, hb] using ih
    | some o =>
      simp only [fontLoop, hb]
      exact corsFree_cacheable_puts _ _ _ _ _ _
        (by rw [hget_hset_ne _ _ _ _ (by decide)]; exact hA)
        (by rw [hget_hset_ne _ _ _ _ (by decide)]; exact hV)

/-- The font handler writes only CORS-free copies to the cache. -/
theorem checkFonts_puts_corsFree (w : World) (env : Env) (ao u : String)
    (hdrs : List (String × String)) (objectKey : String)
    (hA : hget hdrs "Access-Control-Allow-Origin" = Option.none)
    (hV : hget hdrs "Vary" = Option.none) :
    ((checkFonts w env ao u hdrs objectKey).cachePuts.all (fun p => corsFreeResp p.2)) = true := by
  simp only [checkFonts]
  split
  · rfl
  · rfl
  · exact fontLoop_puts_corsFree w env ao u hdrs _ hA hV _

/-- The styles handler writes only CORS-free copies to the cache. -/
theorem handleStyles_puts_corsFree (w : World) (env : Env) (ao u objectKey : String) :
    ((handleStyles w env ao u objectKey).cachePuts.all (fun p => corsFreeResp p.2)) = true := by
  unfold handleStyles
  cases hb : w.bucketGet objectKey with
  | none =>
    exact corsFree_cacheable_puts env ao u
      (Option.some (BodyV.str "File not found")) [] 404 rfl rfl
  | some o =>
    exact corsFree_cacheable_puts env ao u (Option.some (BodyV.bytes (o.body.getD [])))
      (hset [] "Content-Type"
        (if (splitChar '.' objectKey).getLastD "" = "png" then "image/png"
         else if (splitChar '.' objectKey).getLastD "" = "json" then "application/json"
         else "application/octet-stream")) 200
      (corsFree_hdrs_ct _).1 (corsFree_hdrs_ct _).2

/-- The tile handler writes only CORS-free copies to the cache. -/
theorem handleTile_puts_corsFree (w : World) (env : Env) (ao u hn : String)
    (tp : TilePathResult) :
    ((handleTile w env ao u hn tp).cachePuts.all (fun p => corsFreeResp p.2)) = true := by
  unfold handleTile
  repeat' split
  all_goals
    first
    | rfl
    | exact corsFree_cacheable_puts env ao u
        (Option.some (BodyV.str "Archive not found")) [] 404 rfl rfl
    | exact corsFree_cacheable_puts env ao u
        (Option.some (BodyV.str "Archive not found"))
        (hset [] "Content-Type" "application/json") 404
        (corsFree_hdrs_ct _).1 (corsFree_hdrs_ct _).2
    | exact corsFree_cacheable_puts env ao u _
        (hset [] "Content-Type" "application/json") 200
        (corsFree_hdrs_ct _).1 (corsFree_hdrs_ct _).2
    | exact corsFree_cacheable_puts env ao u Option.none [] 404 rfl rfl
    | exact corsFree_cacheable_puts env ao u _ [] 400 rfl rfl
    | exact corsFree_cacheable_puts env ao u _ (contentTypeFor _) _
        (corsFree_contentTypeFor _).1 (corsFree_contentTypeFor _).2

/-- Every copy the cache-miss routing writes to the edge cache is CORS-free. -/
theorem missRoute_puts_corsFree (w : World) (env : Env) (req : Request) :
    ((missRoute w env req).cachePuts.all (fun p => corsFreeResp p.2)) = true := by
  unfold missRoute
  repeat' split
  · exact checkFonts_puts_corsFree w env _ _ [] _ rfl rfl
  · exact handleStyles_puts_corsFree w env _ _ _
  · rfl
  · exact handleTile_puts_corsFree w env _ _ _ _

/-- Every copy `fetch` writes to the edge cache is CORS-free. -/
theorem fetch_puts_corsFree (w : World) (env : Env) (req : Request) :
    ((fetch w env req).cachePuts.all (fun p => corsFreeResp p.2)) = true := by
  by_cases hl : req.pathname = "/list" ∨ req.pathname = "/list/"
  · unfold fetch
    rw [if_pos hl]
    unfold listOut
    cases w.d1Listing <;> rfl
  · by_cases hp : toUpperJs req.method = "POST"
    · unfold fetch
      rw [if_neg hl, if_pos hp]
      rfl
    · cases hc : w.cacheMatch req.url with
      | some c =>
        unfold fetch
        rw [if_neg hl, if_neg hp, hc]
        rfl
      | none =>
        unfold fetch
        rw [if_neg hl, if_neg hp, hc]
        exact missRoute_puts_corsFree w env req

/-- C7 (amended): every copy the worker writes to the edge cache is CORS-free;
a cache-hit serve and every `cacheableResponse` serve carry `Vary: Origin` and
echo the matched origin exactly when one matched; and the stored copy of a
cacheable response is the body and status with only `Cache-Control` added.
(The listing, 405, invalid-URL and font-miss responses bypass this discipline —
see the counterexample.) -/
theorem cors_serve_time_only (w : World) (env : Env) (req : Request)
    (ao u : String) (c : Response) (b : Option BodyV)
    (hdrs : List (String × String)) (st : Nat) :
    ((fetch w env req).cachePuts.all (fun p => corsFreeResp p.2)) = true ∧
    hget (serveCached ao c).headers "Vary" = Option.some "Origin" ∧
    hget (serveCached ao c).headers "Access-Control-Allow-Origin" =
      (if ao = "" then hget c.headers "Access-Control-Allow-Origin"
       else Option.some ao) ∧
    hget (cacheableResponse env ao u b hdrs st).1.headers "Vary" =
      Option.some "Origin" ∧
    hget (cacheableResponse env ao u b hdrs st).1.headers "Access-Control-Allow-Origin" =
      (if ao = "" then hget hdrs "Access-Control-Allow-Origin"
       else Option.some ao) ∧
    (cacheableResponse env ao u b hdrs st).2 =
      [(u, ⟨b, st,
        hset hdrs "Cache-Control" (env.cacheControl.getD "public, max-age=86400")⟩)] := by
  refine ⟨fetch_puts_corsFree w env req, ?_, ?_, ?_, ?_, rfl⟩
  · unfold serveCached
    exact hget_hset_self _ _ _
  · unfold serveCached
    rw [hget_hset_ne _ _ _ _ (by decide)]
    by_cases hao : ao = ""
    · rw [if_pos hao, if_pos hao]
    · rw [if_neg hao, if_neg hao, hget_hset_self]
  · unfold cacheableResponse
    exact hget_hset_self _ _ _
  · unfold cacheableResponse
    rw [hget_hset_ne _ _ _ _ (by decide)]
    by_cases hao : ao = ""
    · rw [if_pos hao, if_pos hao,
        hget_hset_ne _ _ _ _ (by decide)]
    · rw [if_neg hao, if_neg hao, hget_hset_self]

/-- C7 counterexample: the listing response is a served response that carries a
baked-in wildcard `Access-Control-Allow-Origin` and no `Vary` header. -/
theorem cors_headers_counterexample :
    (fetch wList env0 reqList).statusOf = Option.some 200 ∧
    (fetch wList env0 reqList).headerOf "Vary" = Option.none ∧
    (fetch wList env0 reqList).headerOf "Access-Control-Allow-Origin" =
      Option.some "*" :=
  ⟨rfl, rfl, rfl⟩

/-- C5: a font request whose key splits as `fonts/<families>/<glyphRange>`
probes the comma-separated families sequentially in listed order and serves the
bytes of the first family whose object `fonts/<family>/<glyphRange>` exists as
a 200 with Content-Type `application/x-protobuf`; when no listed family
resolves, the request fails with 404. -/
theorem font_resolution_first_hit (w : World) (env : Env) (ao u : String)
    (hdrs : List (String × String)) (objectKey fam glyph : String)
    (families : List String) (bb : List Nat)
    (hsplit : splitChar '/' (decodeSpacesStr objectKey) = ["fonts", fam, glyph])
    (hfam : splitChar ',' fam = families) :
    (checkFonts w env ao u hdrs objectKey).result =
      (match families.findSome? (fontProbe w glyph) with
       | Option.some b => Except.ok (fontHitResp env ao u hdrs b)
       | Option.none =>
          Except.ok ⟨Option.some (BodyV.str "Font not found"), 404, []⟩) ∧
    (fontHitResp env ao u hdrs bb).status = 200 ∧
    hget (fontHitResp env ao u hdrs bb).headers "Content-Type" =
      Option.some "application/x-protobuf" := by
  refine ⟨?_, rfl, ?_⟩
  · unfold checkFonts
    rw [hsplit]
    show (fontLoop w env ao u hdrs ([glyph].headD "undefined") (splitChar ',' fam)).result = _
    rw [hfam]
    simp only [List.headD]
    exact fontLoop_result_eq w env ao u hdrs glyph families
  · unfold fontHitResp
    rw [hget_cacheable_served _ _ _ _ _ _ _ (by decide) (by decide) (by decide)]
    exact hget_hset_self _ _ _

/-- World for the C5 witness: only the second listed family `B` exists. -/
def wFonts : World := { baseW with
  bucketGet := fun k =>
    if k = "fonts/B/0-255.pbf"
    then Option.some ⟨Option.some [7], "e", Option.none, Option.none⟩
    else Option.none }

/-- Witness for `font_resolution_first_hit`: `A,B` where only `B` exists yields
the bytes of B; the served hit is a 200 protobuf response. -/
theorem font_resolution_first_hit_witness :
    splitChar '/' (decodeSpacesStr "fonts/A,B/0-255.pbf") = ["fonts", "A,B", "0-255.pbf"] ∧
    ((checkFonts wFonts env0 "" "u" [] "fonts/A,B/0-255.pbf").result =
      (match (["A", "B"].findSome? (fontProbe wFonts "0-255.pbf")) with
       | Option.some b => Except.ok (fontHitResp env0 "" "u" [] b)
       | Option.none =>
          Except.ok ⟨Option.some (BodyV.str "Font not found"), 404, []⟩) ∧
     (fontHitResp env0 "" "u" [] [7]).status = 200 ∧
     hget (fontHitResp env0 "" "u" [] [7]).headers "Content-Type" =
       Option.some "application/x-protobuf") :=
  ⟨by decide,
   font_resolution_first_hit wFonts env0 "" "u" [] "fonts/A,B/0-255.pbf" "A,B"
     "0-255.pbf" ["A", "B"] [7] (by decide) (by decide)⟩

end Gateway
